import Mathlib

/-!
Shallow embedding of the editing-session state core of
`src/src/components/FlowChart.tsx`: the diagram model (nodes, edges,
columns), the undo/redo history stacks, and the event handlers that decide
which mutations take a history snapshot. Handlers keep their source names.
React state updates are sequentialised: each handler is a function from the
session state to the next session state, and the JSON round-trip deep copy
of the source is the identity on immutable Lean values.
-/

namespace FlowChart

/-- A 2D position in model units. The source stores JS numbers; every value
the embedded handlers compute is integral, so positions are integers. -/
structure Pos where
  x : Int
  y : Int
deriving DecidableEq, Repr

/-- The payload of a node (`node.data` in the source): label, header flag,
column membership and color. -/
structure NodeData where
  label : String := ""
  isHeader : Bool := false
  column : String := ""
  color : String := ""
deriving DecidableEq, Repr

/-- A diagram node as the source stores it in the `nodes` array. -/
structure FlowNode where
  id : String
  type : String := "customNode"
  position : Pos
  data : NodeData
  draggable : Bool := true
  selected : Bool := false
deriving DecidableEq, Repr

/-- A diagram edge as the source stores it in the `edges` array. -/
structure FlowEdge where
  id : String
  source : String
  target : String
  label : String := ""
  animated : Bool := false
  selected : Bool := false
deriving DecidableEq, Repr

/-- A column descriptor (`{ id, title, color }` in the source). -/
structure Column where
  id : String
  title : String
  color : String
deriving DecidableEq, Repr

/-- One history entry: a deep, independent copy of `{nodes, edges}`
(lines 63-64 of the source). -/
structure Snapshot where
  nodes : List FlowNode
  edges : List FlowEdge
deriving DecidableEq, Repr

/-- The session state: live nodes and edges, the column sequence, the two
history stacks, and the current selection. The top of each stack is the
last element of the list, matching the `[...prev, x]` / `slice(0, -1)`
idiom of the source. -/
structure FlowState where
  nodes : List FlowNode
  edges : List FlowEdge
  availableColumns : List Column
  undoStack : List Snapshot := []
  redoStack : List Snapshot := []
  selectedNode : Option FlowNode := none
  selectedEdge : Option FlowEdge := none
deriving DecidableEq, Repr

/-- Source `saveCurrentState` (lines 70-76): pushes a deep copy of the live
`{nodes, edges}` onto the undo stack and clears the redo stack. -/
def saveCurrentState (s : FlowState) : FlowState :=
  { s with
    undoStack := s.undoStack ++ [⟨s.nodes, s.edges⟩]
    redoStack := [] }

/-- Node change events delivered by the rendering collaborator, as the
`change.type` discrimination at lines 81-83 sees them: position updates
during a drag, selection toggles, and removals. -/
inductive NodeChange where
  | position (id : String) (p : Pos)
  | select (id : String) (sel : Bool)
  | remove (id : String)
deriving DecidableEq, Repr

/-- Whether a node change has `type === 'position'`. -/
def NodeChange.isPosition : NodeChange → Bool
  | .position _ _ => true
  | _ => false

/-- Whether a node change has `type === 'select'`. -/
def NodeChange.isSelect : NodeChange → Bool
  | .select _ _ => true
  | _ => false

/-- One step of the rendering library's `applyNodeChanges` helper: a
position change moves the node, a selection change toggles its flag, a
removal drops it. -/
def applyNodeChange (ns : List FlowNode) : NodeChange → List FlowNode
  | .position i p => ns.map fun n => if n.id = i then { n with position := p } else n
  | .select i b => ns.map fun n => if n.id = i then { n with selected := b } else n
  | .remove i => ns.filter fun n => n.id ≠ i

/-- The rendering library's `applyNodeChanges`: apply the changes in order. -/
def applyNodeChanges (cs : List NodeChange) (ns : List FlowNode) : List FlowNode :=
  cs.foldl applyNodeChange ns

/-- Source `onNodesChange` (lines 79-90): snapshot only when some change is neither
a position nor a selection change, then apply all changes to the nodes. -/
def onNodesChange (s : FlowState) (changes : List NodeChange) : FlowState :=
  let nonPositionChanges := changes.filter fun c => !c.isPosition && !c.isSelect
  let s1 := if nonPositionChanges.length > 0 then saveCurrentState s else s
  { s1 with nodes := applyNodeChanges changes s1.nodes }

/-- Edge change events: selection toggles and removals. -/
inductive EdgeChange where
  | select (id : String) (sel : Bool)
  | remove (id : String)
deriving DecidableEq, Repr

/-- Whether an edge change has `type === 'select'`. -/
def EdgeChange.isSelect : EdgeChange → Bool
  | .select _ _ => true
  | _ => false

/-- One step of the rendering library's `applyEdgeChanges` helper. -/
def applyEdgeChange (es : List FlowEdge) : EdgeChange → List FlowEdge
  | .select i b => es.map fun e => if e.id = i then { e with selected := b } else e
  | .remove i => es.filter fun e => e.id ≠ i

/-- The rendering library's `applyEdgeChanges`: apply the changes in order. -/
def applyEdgeChanges (cs : List EdgeChange) (es : List FlowEdge) : List FlowEdge :=
  cs.foldl applyEdgeChange es

/-- Source `onEdgesChange` (lines 92-101): snapshot only when some change is not a
selection change, then apply all changes to the edges. -/
def onEdgesChange (s : FlowState) (changes : List EdgeChange) : FlowState :=
  let nonSelectChanges := changes.filter fun c => ! c.isSelect
  let s1 := if nonSelectChanges.length > 0 then saveCurrentState s else s
  { s1 with edges := applyEdgeChanges changes s1.edges }

/-- Source `onConnect` (lines 103-121): snapshot, then append the connected edge.
The rendering library's `addEdge` helper generates the edge id from the
endpoints; the source decorates it with the animated flag and a default
label. -/
def onConnect (s : FlowState) (source target : String) : FlowState :=
  let s1 := saveCurrentState s
  { s1 with
    edges := s1.edges ++
      [{ id := "reactflow__edge-" ++ source ++ "-" ++ target
         source := source
         target := target
         label := "Hubungan"
         animated := true }] }

/-- Source `onNodeClick` (lines 123-126): selection only. -/
def onNodeClick (s : FlowState) (node : FlowNode) : FlowState :=
  { s with selectedNode := some node, selectedEdge := none }

/-- Source `onEdgeClick` (lines 128-131): selection only. -/
def onEdgeClick (s : FlowState) (edge : FlowEdge) : FlowState :=
  { s with selectedEdge := some edge, selectedNode := none }

/-- Source `onPaneClick` (lines 133-136): clears the selection. -/
def onPaneClick (s : FlowState) : FlowState :=
  { s with selectedNode := none, selectedEdge := none }

/-- Source `onNodeDragStop` (lines 145-147): one snapshot when a drag gesture ends. -/
def onNodeDragStop (s : FlowState) : FlowState :=
  saveCurrentState s

/-- JS `Array.prototype.findIndex`: index of the first match, `-1` if none. -/
def jsFindIndex (p : α → Bool) (l : List α) : Int :=
  match l.findIdx? p with
  | some i => (i : Int)
  | none => -1

/-- The nodes the layout inspects when placing a new node in a column:
same column, header excluded (lines 151-153). -/
def sameColumnNodes (s : FlowState) (c : String) : List FlowNode :=
  s.nodes.filter fun n => n.data.column = c && !n.data.isHeader

/-- The node `handleCreateNode` builds (lines 155-171): the vertical slot
comes from the column's current non-header nodes, the horizontal slot from
the column's ordinal index, and the id from the timestamp `now`
(`Date.now()` in milliseconds). -/
def createdNode (s : FlowState) (ntype : String) (ndata : NodeData)
    (now : Nat) : FlowNode :=
  let y : Int :=
    match (sameColumnNodes s ndata.column).map (fun n => n.position.y) with
    | [] => 100
    | a :: rest => rest.foldl max a + 120
  let columnIndex := jsFindIndex (fun col => col.id = ndata.column) s.availableColumns
  let nodeWidth : Int := 180
  let gap : Int := 80
  let x := columnIndex * (200 + gap) + (200 - nodeWidth) / 2
  { id := "node-" ++ toString now
    type := ntype
    position := ⟨x, y⟩
    data := ndata }

/-- Source `handleCreateNode` (lines 149-174): snapshot, then append the newly
built node. The source reads `nodes` and `availableColumns` from the same
render closure the snapshot copies, so the placement is computed on the
pre-append state. -/
def handleCreateNode (s : FlowState) (ntype : String) (ndata : NodeData)
    (now : Nat) : FlowState :=
  let s1 := saveCurrentState s
  { s1 with nodes := s1.nodes ++ [createdNode s ntype ndata now] }

/-- Source `addColumn` (lines 176-212): snapshot, append the column, and append its
header node at the slot given by the column count before the insertion.
There is no duplicate-id check in the source. -/
def addColumn (s : FlowState) (c : Column) : FlowState :=
  let s1 := saveCurrentState s
  let columnIndex : Int := s1.availableColumns.length
  let columnWidth : Int := 200
  let gap : Int := 80
  let nodeWidth : Int := 180
  let x := columnIndex * (columnWidth + gap) + (columnWidth - nodeWidth) / 2
  let headerNode : FlowNode :=
    { id := "header-" ++ c.id
      type := "customNode"
      position := ⟨x, 10⟩
      data := { label := c.title, isHeader := true, column := c.id, color := c.color }
      draggable := false }
  { s1 with
    availableColumns := s1.availableColumns ++ [c]
    nodes := s1.nodes ++ [headerNode] }

/-- Source `updateNode` (lines 214-221): snapshot, then replace the matching node's
`data` field, leaving everything else of the node intact. There is no
absent-id check in the source. -/
def updateNode (s : FlowState) (nodeId : String) (d : NodeData) : FlowState :=
  let s1 := saveCurrentState s
  { s1 with
    nodes := s1.nodes.map fun n => if n.id = nodeId then { n with data := d } else n }

/-- Source `deleteNode` (lines 223-227): snapshot, then drop the matching node and
every edge whose source or target equals the id, in one combined step. -/
def deleteNode (s : FlowState) (nodeId : String) : FlowState :=
  let s1 := saveCurrentState s
  { s1 with
    nodes := s1.nodes.filter fun n => n.id ≠ nodeId
    edges := s1.edges.filter fun e => e.source ≠ nodeId && e.target ≠ nodeId }

/-- Source `handleUndo` (lines 229-241): no-op on an empty undo stack; otherwise
push the live state onto the redo stack, pop the undo stack, and restore the
popped snapshot. -/
def handleUndo (s : FlowState) : FlowState :=
  match s.undoStack.getLast? with
  | none => s
  | some previousState =>
    { s with
      redoStack := s.redoStack ++ [⟨s.nodes, s.edges⟩]
      undoStack := s.undoStack.dropLast
      nodes := previousState.nodes
      edges := previousState.edges }

/-- Source `handleRedo` (lines 243-255): the mirror image of `handleUndo`. -/
def handleRedo (s : FlowState) : FlowState :=
  match s.redoStack.getLast? with
  | none => s
  | some nextState =>
    { s with
      undoStack := s.undoStack ++ [⟨s.nodes, s.edges⟩]
      redoStack := s.redoStack.dropLast
      nodes := nextState.nodes
      edges := nextState.edges }

/-- A full drag gesture as the source receives it: the press has no handler,
each move arrives as a position-only `onNodesChange` call, and the release
fires `onNodeDragStop` (lines 79-90 and 143-147). -/
def dragGesture (s : FlowState) (moves : List (String × Pos)) : FlowState :=
  onNodeDragStop
    (moves.foldl (fun st m => onNodesChange st [NodeChange.position m.1 m.2]) s)

/-- Undo after a snapshotting mutation restores the pre-mutation nodes and
edges, and redo right after that undo restores the post-mutation ones. -/
def undoRedoRoundtrip (s s' : FlowState) : Prop :=
  (handleUndo s').nodes = s.nodes ∧ (handleUndo s').edges = s.edges ∧
    (handleRedo (handleUndo s')).nodes = s'.nodes ∧
    (handleRedo (handleUndo s')).edges = s'.edges

/-- After any structural mutation the redo stack is empty and an immediate
`handleRedo` is a no-op. -/
def redoCleared (s' : FlowState) : Prop :=
  s'.redoStack = [] ∧ handleRedo s' = s'

/-- An event left both history stacks untouched. -/
def stacksPreserved (s s' : FlowState) : Prop :=
  s'.undoStack = s.undoStack ∧ s'.redoStack = s.redoStack

/-- The cumulative effect of a drag gesture's position changes on the node
list. -/
def applyMoves (ns : List FlowNode) (moves : List (String × Pos)) : List FlowNode :=
  moves.foldl (fun acc m => applyNodeChange acc (NodeChange.position m.1 m.2)) ns

/-- A concrete header node for the sample states below. -/
def headerA : FlowNode :=
  { id := "header-a"
    type := "customNode"
    position := ⟨10, 10⟩
    data := { label := "A", isHeader := true, column := "a", color := "red" }
    draggable := false }

/-- A concrete ordinary node sitting in column `a`. -/
def plainNode : FlowNode :=
  { id := "n1"
    type := "customNode"
    position := ⟨10, 100⟩
    data := { label := "x", isHeader := false, column := "a", color := "" } }

/-- A concrete edge from `n1` to itself. -/
def loopEdge : FlowEdge :=
  { id := "e1", source := "n1", target := "n1" }

/-- A concrete session state: one column, its header, one node, one edge,
and a non-empty redo stack. -/
def sampleState : FlowState :=
  { nodes := [headerA, plainNode]
    edges := [loopEdge]
    availableColumns := [⟨"a", "A", "red"⟩]
    undoStack := []
    redoStack := [⟨[], []⟩] }

/-- A concrete session state whose only column is still empty: just the
header node of column `a`. -/
def emptyColState : FlowState :=
  { nodes := [headerA]
    edges := []
    availableColumns := [⟨"a", "A", "red"⟩] }

/-! Helper lemmas shared by several claims. -/

/-- Popping a stack whose top was just pushed. -/
theorem handleUndo_of_concat (u : FlowState) (l : List Snapshot) (sn : Snapshot)
    (hu : u.undoStack = l ++ [sn]) :
    handleUndo u =
      { u with
        nodes := sn.nodes
        edges := sn.edges
        undoStack := l
        redoStack := u.redoStack ++ [⟨u.nodes, u.edges⟩] } := by
  simp [handleUndo, hu, List.getLast?_concat, List.dropLast_concat]

/-- Popping the redo stack restores its top entry. -/
theorem handleRedo_of_concat (u : FlowState) (l : List Snapshot) (sn : Snapshot)
    (hr : u.redoStack = l ++ [sn]) :
    handleRedo u =
      { u with
        nodes := sn.nodes
        edges := sn.edges
        redoStack := l
        undoStack := u.undoStack ++ [⟨u.nodes, u.edges⟩] } := by
  simp [handleRedo, hr, List.getLast?_concat, List.dropLast_concat]

/-- The handler `handleRedo` is the identity when the redo stack is empty. -/
theorem handleRedo_of_empty (u : FlowState) (h : u.redoStack = []) :
    handleRedo u = u := by
  simp [handleRedo, h]

/-- The handler `handleUndo` is the identity when the undo stack is empty. -/
theorem handleUndo_of_empty (u : FlowState) (h : u.undoStack = []) :
    handleUndo u = u := by
  simp [handleUndo, h]

/-- Any mutation that begins with `saveCurrentState` and then only rewrites
nodes, edges or columns satisfies the undo/redo roundtrip. -/
theorem undoRedoRoundtrip_of_snapshot (s s' : FlowState)
    (hu : s'.undoStack = s.undoStack ++ [⟨s.nodes, s.edges⟩])
    (hr : s'.redoStack = []) : undoRedoRoundtrip s s' := by
  have h1 := handleUndo_of_concat s' s.undoStack ⟨s.nodes, s.edges⟩ hu
  have h2 : (handleUndo s').redoStack = [] ++ [(⟨s'.nodes, s'.edges⟩ : Snapshot)] := by
    rw [h1]; simp [hr]
  have h3 := handleRedo_of_concat (handleUndo s') [] ⟨s'.nodes, s'.edges⟩ h2
  refine ⟨?_, ?_, ?_, ?_⟩
  · rw [h1]
  · rw [h1]
  · rw [h3]
  · rw [h3]

/-- C1: for every session state, each structural mutation — node creation,
node deletion, node data update, and edge connection — followed by `handleUndo`
restores `{nodes, edges}` exactly to their pre-mutation value, and
`handleRedo` immediately after that undo restores the post-mutation value. -/
theorem c1_mutation_undo_redo (s : FlowState) (ntype : String) (d : NodeData)
    (t : Nat) (nodeId : String) (src tgt : String) :
    undoRedoRoundtrip s (handleCreateNode s ntype d t) ∧
      undoRedoRoundtrip s (deleteNode s nodeId) ∧
      undoRedoRoundtrip s (updateNode s nodeId d) ∧
      undoRedoRoundtrip s (onConnect s src tgt) := by
  refine ⟨?_, ?_, ?_, ?_⟩ <;> exact undoRedoRoundtrip_of_snapshot _ _ rfl rfl

/-- C2: for every state with a non-empty redo stack, each structural
mutation (node creation, deletion, data update, edge connection) leaves the
redo stack empty, so a subsequent `handleRedo` is a no-op until another undo
occurs. -/
theorem c2_mutation_clears_redo (s : FlowState) (hredo : s.redoStack ≠ [])
    (ntype : String) (d : NodeData) (t : Nat) (nodeId : String)
    (src tgt : String) :
    redoCleared (handleCreateNode s ntype d t) ∧
      redoCleared (deleteNode s nodeId) ∧
      redoCleared (updateNode s nodeId d) ∧
      redoCleared (onConnect s src tgt) := by
  refine ⟨⟨rfl, ?_⟩, ⟨rfl, ?_⟩, ⟨rfl, ?_⟩, ⟨rfl, ?_⟩⟩ <;>
    exact handleRedo_of_empty _ rfl

/-- C2 witness: the sample state has a non-empty redo stack and the theorem
applies to it. -/
theorem c2_mutation_clears_redo_witness :
    redoCleared (handleCreateNode sampleState "customNode" {} 7) ∧
      redoCleared (deleteNode sampleState "n1") ∧
      redoCleared (updateNode sampleState "n1" {}) ∧
      redoCleared (onConnect sampleState "n1" "n1") :=
  c2_mutation_clears_redo sampleState (by decide) "customNode" {} 7 "n1" "n1" "n1"

/-- C9: `deleteNode` and `updateNode` unconditionally push one history entry
and clear the redo stack, even when the id matches nothing and
`{nodes, edges}` stay unchanged: a no-op deletion or update still mutates
history. -/
theorem c9_noop_still_mutates_history (s : FlowState) (nodeId : String)
    (d : NodeData) :
    (deleteNode s nodeId).undoStack = s.undoStack ++ [⟨s.nodes, s.edges⟩] ∧
      (deleteNode s nodeId).redoStack = [] ∧
      (updateNode s nodeId d).undoStack = s.undoStack ++ [⟨s.nodes, s.edges⟩] ∧
      (updateNode s nodeId d).redoStack = [] ∧
      ((∀ n ∈ s.nodes, n.id ≠ nodeId) → (updateNode s nodeId d).nodes = s.nodes) ∧
      ((∀ n ∈ s.nodes, n.id ≠ nodeId) →
        (∀ e ∈ s.edges, e.source ≠ nodeId ∧ e.target ≠ nodeId) →
        (deleteNode s nodeId).nodes = s.nodes ∧
          (deleteNode s nodeId).edges = s.edges) := by
  refine ⟨rfl, rfl, rfl, rfl, ?_, ?_⟩
  · intro habs
    show s.nodes.map _ = s.nodes
    calc s.nodes.map (fun n => if n.id = nodeId then { n with data := d } else n)
        = s.nodes.map id := by
          apply List.map_congr_left
          intro n hn
          simp [habs n hn]
      _ = s.nodes := List.map_id s.nodes
  · intro habs hedges
    constructor
    · show s.nodes.filter _ = s.nodes
      apply List.filter_eq_self.mpr
      intro n hn
      simp [habs n hn]
    · show s.edges.filter _ = s.edges
      apply List.filter_eq_self.mpr
      intro e he
      simp [(hedges e he).1, (hedges e he).2]

/-- C9 witness: deleting and updating the absent id `zzz` on the sample
state still pushes a history entry while leaving nodes and edges intact. -/
theorem c9_noop_still_mutates_history_witness :
    (deleteNode sampleState "zzz").undoStack =
        sampleState.undoStack ++ [⟨sampleState.nodes, sampleState.edges⟩] ∧
      (deleteNode sampleState "zzz").redoStack = [] ∧
      (updateNode sampleState "zzz" ({} : NodeData)).nodes = sampleState.nodes ∧
      (deleteNode sampleState "zzz").nodes = sampleState.nodes ∧
      (deleteNode sampleState "zzz").edges = sampleState.edges := by
  have h := c9_noop_still_mutates_history sampleState "zzz" {}
  exact ⟨h.1, h.2.1, h.2.2.2.2.1 (by decide),
    (h.2.2.2.2.2 (by decide) (by decide)).1,
    (h.2.2.2.2.2 (by decide) (by decide)).2⟩

/-- Filtering twice with the same predicate filters once. -/
theorem filter_idem (p : α → Bool) (l : List α) :
    (l.filter p).filter p = l.filter p := by
  induction l with
  | nil => rfl
  | cons a l ih =>
    cases hp : p a <;> simp [List.filter_cons, hp, ih]

/-- C3: `deleteNode id` removes the node with that id and, in the same
step, every edge whose source or target equals the id, keeping everything
else; on a state where the id names no node (and edges only reference
existing nodes) it is a no-op on `{nodes, edges}`; and doing it twice gives
the same `{nodes, edges}` as doing it once. -/
theorem c3_deleteNode_atomic_idempotent (s : FlowState) (nodeId : String) :
    (∀ n ∈ (deleteNode s nodeId).nodes, n.id ≠ nodeId) ∧
      (∀ n ∈ s.nodes, n.id ≠ nodeId → n ∈ (deleteNode s nodeId).nodes) ∧
      (∀ e ∈ (deleteNode s nodeId).edges, e.source ≠ nodeId ∧ e.target ≠ nodeId) ∧
      (∀ e ∈ s.edges, e.source ≠ nodeId → e.target ≠ nodeId →
        e ∈ (deleteNode s nodeId).edges) ∧
      ((∀ n ∈ s.nodes, n.id ≠ nodeId) →
        (∀ e ∈ s.edges, (∃ n ∈ s.nodes, n.id = e.source) ∧
          (∃ n ∈ s.nodes, n.id = e.target)) →
        (deleteNode s nodeId).nodes = s.nodes ∧
          (deleteNode s nodeId).edges = s.edges) ∧
      ((deleteNode (deleteNode s nodeId) nodeId).nodes = (deleteNode s nodeId).nodes ∧
        (deleteNode (deleteNode s nodeId) nodeId).edges = (deleteNode s nodeId).edges) := by
  refine ⟨?_, ?_, ?_, ?_, ?_, ?_, ?_⟩
  · intro n hn
    have := (List.mem_filter.mp hn).2
    simpa using this
  · intro n hn hne
    exact List.mem_filter.mpr ⟨hn, by simpa using hne⟩
  · intro e he
    have := (List.mem_filter.mp he).2
    simpa using this
  · intro e he h1 h2
    exact List.mem_filter.mpr ⟨he, by simp [h1, h2]⟩
  · intro habs hcons
    constructor
    · show s.nodes.filter _ = s.nodes
      exact List.filter_eq_self.mpr fun n hn => by simp [habs n hn]
    · show s.edges.filter _ = s.edges
      refine List.filter_eq_self.mpr fun e he => ?_
      obtain ⟨⟨ns, hns, hsrc⟩, ⟨nt, hnt, htgt⟩⟩ := hcons e he
      have h1 : e.source ≠ nodeId := hsrc ▸ habs ns hns
      have h2 : e.target ≠ nodeId := htgt ▸ habs nt hnt
      simp [h1, h2]
  · show ((s.nodes.filter _).filter _) = s.nodes.filter _
    exact filter_idem _ s.nodes
  · show ((s.edges.filter _).filter _) = s.edges.filter _
    exact filter_idem _ s.edges

/-- C3 witness: deleting `n1` from the sample state removes the node and
its self-loop edge, the survivors remain, and the double deletion agrees
with the single one. -/
theorem c3_deleteNode_atomic_idempotent_witness :
    (∀ n ∈ (deleteNode sampleState "n1").nodes, n.id ≠ "n1") ∧
      headerA ∈ (deleteNode sampleState "n1").nodes ∧
      (∀ e ∈ (deleteNode sampleState "n1").edges,
        e.source ≠ "n1" ∧ e.target ≠ "n1") ∧
      ((deleteNode (deleteNode sampleState "n1") "n1").nodes =
          (deleteNode sampleState "n1").nodes ∧
        (deleteNode (deleteNode sampleState "n1") "n1").edges =
          (deleteNode sampleState "n1").edges) := by
  have h := c3_deleteNode_atomic_idempotent sampleState "n1"
  exact ⟨h.1, h.2.1 headerA (by decide) (by decide), h.2.2.1, h.2.2.2.2.2⟩

/-- C4 counterexample: the sample state already holds column `a`, yet
`addColumn` with id `a` does not fail — it changes the column sequence and
the node list, leaving two header nodes with id `header-a`. -/
theorem c4_counterexample :
    (addColumn sampleState ⟨"a", "A2", "blue"⟩).availableColumns ≠
        sampleState.availableColumns ∧
      (addColumn sampleState ⟨"a", "A2", "blue"⟩).nodes ≠ sampleState.nodes ∧
      ((addColumn sampleState ⟨"a", "A2", "blue"⟩).nodes.countP
        fun n => n.id = "header-a") = 2 := by
  decide

/-- C4 amended: `addColumn` never fails; it unconditionally appends the
column to the column sequence and creates exactly one header node with id
`header-<columnId>`, flagged as a header, placed at the slot of the column
count before the insertion — even when the column id is already present,
in which case a second column entry and a duplicate header id appear. -/
theorem c4_addColumn_appends_header (s : FlowState) (c : Column) :
    (addColumn s c).availableColumns = s.availableColumns ++ [c] ∧
      ∃ h : FlowNode,
        (addColumn s c).nodes = s.nodes ++ [h] ∧
          h.id = "header-" ++ c.id ∧
          h.data.isHeader = true ∧
          h.data.column = c.id ∧
          h.position.y = 10 ∧
          h.position.x = (s.availableColumns.length : Int) * 280 + 10 := by
  refine ⟨rfl, _, rfl, rfl, rfl, rfl, rfl, ?_⟩
  show (s.availableColumns.length : Int) * (200 + 80) + (200 - 180) / 2 =
    (s.availableColumns.length : Int) * 280 + 10
  norm_num

/-- The created node carries the payload it was given. -/
theorem createdNode_data (s : FlowState) (ntype : String) (d : NodeData)
    (t : Nat) : (createdNode s ntype d t).data = d := rfl

/-- The created node's id is derived from the timestamp. -/
theorem createdNode_id (s : FlowState) (ntype : String) (d : NodeData)
    (t : Nat) : (createdNode s ntype d t).id = "node-" ++ toString t := rfl

/-- An empty column places the new node at `y = 100`. -/
theorem createdNode_y_of_empty (s : FlowState) (ntype : String) (d : NodeData)
    (t : Nat) (hemp : sameColumnNodes s d.column = []) :
    (createdNode s ntype d t).position.y = 100 := by
  simp [createdNode, hemp]

/-- A non-empty column places the new node 120 below its current maximum. -/
theorem createdNode_y_of_cons (s : FlowState) (ntype : String) (d : NodeData)
    (t : Nat) (a : Int) (rest : List Int)
    (hys : (sameColumnNodes s d.column).map (fun n => n.position.y) = a :: rest) :
    (createdNode s ntype d t).position.y = rest.foldl max a + 120 := by
  simp [createdNode, hys]

/-- The horizontal slot comes from the column's ordinal index. -/
theorem createdNode_x (s : FlowState) (ntype : String) (d : NodeData)
    (t : Nat) (i : Nat)
    (hi : s.availableColumns.findIdx? (fun col => col.id = d.column) = some i) :
    (createdNode s ntype d t).position.x = (i : Int) * 280 + 10 := by
  simp [createdNode, jsFindIndex, hi]

/-- After a create, the same-column node list gains exactly the new node. -/
theorem sameColumnNodes_handleCreateNode (s : FlowState) (ntype : String)
    (d : NodeData) (t : Nat) (hh : d.isHeader = false) :
    sameColumnNodes (handleCreateNode s ntype d t) d.column =
      sameColumnNodes s d.column ++ [createdNode s ntype d t] := by
  show ((s.nodes ++ [createdNode s ntype d t]).filter _) = _
  rw [List.filter_append]
  congr 1
  simp [createdNode_data, hh]

/-- C5: with the target column present at ordinal index `i`, the new node
lands at `x = i * 280 + 10`, at `y = 100` when the column holds no
non-header node and at the column's maximum `y` plus `120` otherwise; in
particular three successive creations into an empty column land at
`y = 100`, `220` and `340`. -/
theorem c5_layout_placement :
    (∀ (s : FlowState) (ntype : String) (d : NodeData) (t : Nat) (i : Nat),
      s.availableColumns.findIdx? (fun col => col.id = d.column) = some i →
      (handleCreateNode s ntype d t).nodes = s.nodes ++ [createdNode s ntype d t] ∧
        (createdNode s ntype d t).position.x = (i : Int) * 280 + 10 ∧
        (sameColumnNodes s d.column = [] →
          (createdNode s ntype d t).position.y = 100) ∧
        (∀ (a : Int) (rest : List Int),
          (sameColumnNodes s d.column).map (fun n => n.position.y) = a :: rest →
          (createdNode s ntype d t).position.y = rest.foldl max a + 120)) ∧
    (∀ (s : FlowState) (ntype : String) (d : NodeData) (t1 t2 t3 : Nat),
      d.isHeader = false →
      sameColumnNodes s d.column = [] →
      (createdNode s ntype d t1).position.y = 100 ∧
        (createdNode (handleCreateNode s ntype d t1) ntype d t2).position.y = 220 ∧
        (createdNode (handleCreateNode (handleCreateNode s ntype d t1) ntype d t2)
            ntype d t3).position.y = 340) := by
  constructor
  · intro s ntype d t i hi
    exact ⟨rfl, createdNode_x s ntype d t i hi,
      createdNode_y_of_empty s ntype d t,
      fun a rest hys => createdNode_y_of_cons s ntype d t a rest hys⟩
  · intro s ntype d t1 t2 t3 hh hemp
    have hy1 : (createdNode s ntype d t1).position.y = 100 :=
      createdNode_y_of_empty s ntype d t1 hemp
    have hs2 : sameColumnNodes (handleCreateNode s ntype d t1) d.column =
        [createdNode s ntype d t1] := by
      rw [sameColumnNodes_handleCreateNode s ntype d t1 hh, hemp]
      rfl
    have hy2 : (createdNode (handleCreateNode s ntype d t1) ntype d t2).position.y = 220 := by
      have := createdNode_y_of_cons (handleCreateNode s ntype d t1) ntype d t2
        ((createdNode s ntype d t1).position.y) []
        (by rw [hs2]; rfl)
      rw [this]
      simp [hy1]
    have hs3 : sameColumnNodes (handleCreateNode (handleCreateNode s ntype d t1)
        ntype d t2) d.column =
        [createdNode s ntype d t1, createdNode (handleCreateNode s ntype d t1) ntype d t2] := by
      rw [sameColumnNodes_handleCreateNode _ ntype d t2 hh, hs2]
      rfl
    have hy3 : (createdNode (handleCreateNode (handleCreateNode s ntype d t1)
        ntype d t2) ntype d t3).position.y = 340 := by
      have := createdNode_y_of_cons
        (handleCreateNode (handleCreateNode s ntype d t1) ntype d t2) ntype d t3
        ((createdNode s ntype d t1).position.y)
        [(createdNode (handleCreateNode s ntype d t1) ntype d t2).position.y]
        (by rw [hs3]; rfl)
      rw [this]
      simp [hy1, hy2]
    exact ⟨hy1, hy2, hy3⟩

/-- C5 witness: three creations into the empty column `a` of the concrete
state land at `y = 100`, `220`, `340`, and the first lands at the x-slot of
ordinal index `0`. -/
theorem c5_layout_placement_witness :
    (createdNode emptyColState "customNode" plainNode.data 1).position.y = 100 ∧
      (createdNode (handleCreateNode emptyColState "customNode" plainNode.data 1)
          "customNode" plainNode.data 2).position.y = 220 ∧
      (createdNode (handleCreateNode (handleCreateNode emptyColState "customNode"
          plainNode.data 1) "customNode" plainNode.data 2)
          "customNode" plainNode.data 3).position.y = 340 ∧
      (createdNode emptyColState "customNode" plainNode.data 1).position.x =
        (0 : Int) * 280 + 10 := by
  have h := c5_layout_placement
  have hseq := h.2 emptyColState "customNode" plainNode.data 1 2 3 (by decide) (by decide)
  have hx := (h.1 emptyColState "customNode" plainNode.data 1 0 (by decide)).2.1
  exact ⟨hseq.1, hseq.2.1, hseq.2.2, hx⟩

/-- Every pair of a list zipped with its own map relates by the function. -/
theorem zip_map_self (f : α → α) (l : List α) :
    ∀ p ∈ l.zip (l.map f), p.2 = f p.1 := by
  induction l with
  | nil => simp
  | cons a l ih =>
    intro p hp
    simp only [List.map_cons, List.zip_cons_cons, List.mem_cons] at hp
    rcases hp with h | h
    · rw [h]
    · exact ih p h

/-- C6 counterexample: no node of the sample state has id `zzz`, yet
`updateNode` does not fail: it returns a successor state with the node list
unchanged and a freshly pushed history entry, exactly as a successful
update would. -/
theorem c6_counterexample :
    (updateNode sampleState "zzz" ({} : NodeData)).nodes = sampleState.nodes ∧
      (updateNode sampleState "zzz" ({} : NodeData)).undoStack.length =
        sampleState.undoStack.length + 1 := by
  decide

/-- C6 amended: `updateNode` is a silent no-op on the node list when the id
is absent (it does not fail with `NotFound`); when the node exists its
payload is fully replaced while its id, position and type are preserved,
and every other node is unchanged. -/
theorem c6_updateNode_replaces_data (s : FlowState) (nodeId : String)
    (d : NodeData) :
    ((∀ n ∈ s.nodes, n.id ≠ nodeId) → (updateNode s nodeId d).nodes = s.nodes) ∧
      (updateNode s nodeId d).nodes.length = s.nodes.length ∧
      (∀ p ∈ s.nodes.zip (updateNode s nodeId d).nodes,
        p.2.id = p.1.id ∧ p.2.position = p.1.position ∧ p.2.type = p.1.type ∧
          (p.1.id = nodeId → p.2.data = d) ∧ (p.1.id ≠ nodeId → p.2 = p.1)) := by
  refine ⟨?_, ?_, ?_⟩
  · intro habs
    show s.nodes.map _ = s.nodes
    calc s.nodes.map (fun n => if n.id = nodeId then { n with data := d } else n)
        = s.nodes.map id := by
          apply List.map_congr_left
          intro n hn
          simp [habs n hn]
      _ = s.nodes := List.map_id s.nodes
  · show (s.nodes.map _).length = s.nodes.length
    exact List.length_map s.nodes _
  · intro p hp
    have hp' : p ∈ s.nodes.zip
        (s.nodes.map fun n =>
          if n.id = nodeId then ({ n with data := d } : FlowNode) else n) := hp
    have h2 := zip_map_self
      (fun n => if n.id = nodeId then ({ n with data := d } : FlowNode) else n)
      s.nodes p hp'
    by_cases hid : p.1.id = nodeId
    · have h3 : p.2 = { p.1 with data := d } := by rw [h2]; simp [hid]
      rw [h3]
      exact ⟨rfl, rfl, rfl, fun _ => rfl, fun hne => absurd hid hne⟩
    · have h3 : p.2 = p.1 := by rw [h2]; simp [hid]
      rw [h3]
      exact ⟨rfl, rfl, rfl, fun heq => absurd heq hid, fun _ => rfl⟩

/-- C6 witness: updating the absent id `zzz` leaves the sample node list
unchanged; updating `n1` keeps the length and fully replaces the payload of
the pair at `n1`. -/
theorem c6_updateNode_replaces_data_witness :
    (updateNode sampleState "zzz" headerA.data).nodes = sampleState.nodes ∧
      (updateNode sampleState "n1" headerA.data).nodes.length =
        sampleState.nodes.length ∧
      ({ plainNode with data := headerA.data } : FlowNode).data = headerA.data := by
  have h1 := c6_updateNode_replaces_data sampleState "zzz" headerA.data
  have h2 := c6_updateNode_replaces_data sampleState "n1" headerA.data
  refine ⟨h1.1 (by decide), h2.2.1, ?_⟩
  exact (h2.2.2 (plainNode, { plainNode with data := headerA.data })
    (by decide)).2.2.2.1 (by decide)

/-- A batch of selection-only node changes takes no snapshot: only the node
list is updated. -/
theorem onNodesChange_of_all_select (s : FlowState) (ncs : List NodeChange)
    (hn : ∀ c ∈ ncs, c.isSelect = true) :
    onNodesChange s ncs = { s with nodes := applyNodeChanges ncs s.nodes } := by
  have hfil : ncs.filter (fun c => !c.isPosition && !c.isSelect) = [] :=
    List.filter_eq_nil_iff.mpr fun c hc => by simp [hn c hc]
  unfold onNodesChange
  simp [hfil]

/-- A batch of selection-only edge changes takes no snapshot. -/
theorem onEdgesChange_of_all_select (s : FlowState) (ecs : List EdgeChange)
    (he : ∀ c ∈ ecs, c.isSelect = true) :
    onEdgesChange s ecs = { s with edges := applyEdgeChanges ecs s.edges } := by
  have hfil : ecs.filter (fun c => ! c.isSelect) = [] :=
    List.filter_eq_nil_iff.mpr fun c hc => by simp [he c hc]
  unfold onEdgesChange
  simp [hfil]

/-- C7: selection-only activity — clicking a node, clicking an edge,
clicking the empty pane, and node or edge change batches made solely of
`select` changes — never pushes onto the undo stack and never clears the
redo stack. -/
theorem c7_selection_never_touches_history (s : FlowState) (node : FlowNode)
    (edge : FlowEdge) (ncs : List NodeChange) (ecs : List EdgeChange)
    (hn : ∀ c ∈ ncs, c.isSelect = true) (he : ∀ c ∈ ecs, c.isSelect = true) :
    stacksPreserved s (onNodeClick s node) ∧
      stacksPreserved s (onEdgeClick s edge) ∧
      stacksPreserved s (onPaneClick s) ∧
      stacksPreserved s (onNodesChange s ncs) ∧
      stacksPreserved s (onEdgesChange s ecs) := by
  refine ⟨⟨rfl, rfl⟩, ⟨rfl, rfl⟩, ⟨rfl, rfl⟩, ?_, ?_⟩
  · rw [onNodesChange_of_all_select s ncs hn]
    exact ⟨rfl, rfl⟩
  · rw [onEdgesChange_of_all_select s ecs he]
    exact ⟨rfl, rfl⟩

/-- C7 witness: concrete selection events on the sample state. -/
theorem c7_selection_never_touches_history_witness :
    stacksPreserved sampleState (onNodeClick sampleState headerA) ∧
      stacksPreserved sampleState (onEdgeClick sampleState loopEdge) ∧
      stacksPreserved sampleState (onPaneClick sampleState) ∧
      stacksPreserved sampleState
        (onNodesChange sampleState [NodeChange.select "n1" true]) ∧
      stacksPreserved sampleState
        (onEdgesChange sampleState [EdgeChange.select "e1" true]) :=
  c7_selection_never_touches_history sampleState headerA loopEdge
    [NodeChange.select "n1" true] [EdgeChange.select "e1" true]
    (by decide) (by decide)

/-- A single position change takes no snapshot: only the node moves. -/
theorem onNodesChange_position_single (s : FlowState) (i : String) (p : Pos) :
    onNodesChange s [NodeChange.position i p] =
      { s with nodes := applyNodeChange s.nodes (NodeChange.position i p) } := rfl

/-- The whole effect of a drag gesture: all position changes are applied to
the node list without snapshots, and the release pushes exactly one history
entry holding the post-drag nodes and the untouched edges. -/
theorem dragGesture_one_entry (s : FlowState) (moves : List (String × Pos)) :
    (dragGesture s moves).undoStack =
        s.undoStack ++ [⟨applyMoves s.nodes moves, s.edges⟩] ∧
      (dragGesture s moves).redoStack = [] ∧
      (dragGesture s moves).nodes = applyMoves s.nodes moves ∧
      (dragGesture s moves).edges = s.edges := by
  induction moves generalizing s with
  | nil => exact ⟨rfl, rfl, rfl, rfl⟩
  | cons m rest ih =>
    have hstep : dragGesture s (m :: rest) =
        dragGesture (onNodesChange s [NodeChange.position m.1 m.2]) rest := rfl
    rw [hstep, onNodesChange_position_single]
    exact ih { s with nodes := applyNodeChange s.nodes (NodeChange.position m.1 m.2) }

/-- C8 counterexample: a concrete one-move drag gesture on the sample state
pushes one entry, but that entry does not hold the pre-drag `{nodes, edges}`
— it holds the post-drag state, so the snapshot is not taken at the start
of the gesture. -/
theorem c8_counterexample :
    (dragGesture sampleState [("n1", ⟨99, 100⟩)]).undoStack.length =
        sampleState.undoStack.length + 1 ∧
      (dragGesture sampleState [("n1", ⟨99, 100⟩)]).undoStack.getLast? ≠
        some ⟨sampleState.nodes, sampleState.edges⟩ := by
  decide

/-- C8 amended: a full drag gesture (press, any number of position-change
events, release) pushes exactly one history entry, but the snapshot is
taken when the gesture ends, so the entry holds the post-drag
`{nodes, edges}`, not the pre-drag state. -/
theorem c8_drag_single_entry_post_state (s : FlowState)
    (moves : List (String × Pos)) :
    (dragGesture s moves).undoStack.length = s.undoStack.length + 1 ∧
      (dragGesture s moves).undoStack =
        s.undoStack ++ [⟨applyMoves s.nodes moves, s.edges⟩] ∧
      (dragGesture s moves).nodes = applyMoves s.nodes moves := by
  have h := dragGesture_one_entry s moves
  refine ⟨?_, h.1, h.2.2.1⟩
  rw [h.1]
  simp

/-- C10: created node ids are `node-<timestamp>`, so two creations sharing
one millisecond timestamp yield two nodes with the same id: uniqueness
holds only under the precondition that no two creations share a
millisecond. -/
theorem c10_timestamp_id_collision (s : FlowState) (ty1 ty2 : String)
    (d1 d2 : NodeData) (t : Nat) :
    (∀ (ty : String) (d : NodeData),
      (handleCreateNode s ty d t).nodes = s.nodes ++ [createdNode s ty d t] ∧
        (createdNode s ty d t).id = "node-" ++ toString t) ∧
      2 ≤ (handleCreateNode (handleCreateNode s ty1 d1 t) ty2 d2 t).nodes.countP
          (fun n => n.id = "node-" ++ toString t) := by
  refine ⟨fun ty d => ⟨rfl, rfl⟩, ?_⟩
  show 2 ≤ ((s.nodes ++ [createdNode s ty1 d1 t]) ++
      [createdNode (handleCreateNode s ty1 d1 t) ty2 d2 t]).countP _
  rw [List.countP_append, List.countP_append]
  have h1 : ([createdNode s ty1 d1 t].countP
      fun n => n.id = "node-" ++ toString t) = 1 := by
    simp [List.countP_cons, createdNode_id]
  have h2 : ([createdNode (handleCreateNode s ty1 d1 t) ty2 d2 t].countP
      fun n => n.id = "node-" ++ toString t) = 1 := by
    simp [List.countP_cons, createdNode_id]
  omega

end FlowChart
